import Mathlib

/-!
Shallow embedding of `src/agents/pi-tools.after-tool-call.ts`: the
after-tool-call hook instrumentation layer. JavaScript runtime values are
modelled by `JsValue`; the asynchronous hook runner is modelled by a
behaviour function whose result records whether its pending operation
resolves, rejects, throws synchronously, or never settles. The wrapped
`execute` is a pure function that returns the caller-visible outcome
together with the trace of dispatches handed to the hook runner and the
warning messages logged.
-/

/-- JavaScript runtime values, as far as this module observes them:
`typeof`, `Array.isArray`, `=== null`, and `String(...)` coercion.
`error name msg` stands for a JS `Error` instance with the given
`name` and `message`. -/
inductive JsValue where
  | undef : JsValue
  | jsNull : JsValue
  | bool : Bool → JsValue
  | num : Int → JsValue
  | str : String → JsValue
  | error : String → String → JsValue
  | arr : List JsValue → JsValue
  | obj : List (String × JsValue) → JsValue

/-- JavaScript `typeof` on the modelled values (`typeof null` is
`"object"`, arrays and `Error` instances are `"object"`). -/
def jsTypeof : JsValue → String
  | JsValue.undef => "undefined"
  | JsValue.jsNull => "object"
  | JsValue.bool _ => "boolean"
  | JsValue.num _ => "number"
  | JsValue.str _ => "string"
  | JsValue.error _ _ => "object"
  | JsValue.arr _ => "object"
  | JsValue.obj _ => "object"

/-- JavaScript `Array.isArray`. -/
def jsIsArray : JsValue → Bool
  | JsValue.arr _ => true
  | _ => false

/-- JavaScript `value === null`. -/
def jsIsNull : JsValue → Bool
  | JsValue.jsNull => true
  | _ => false

/-- Source: `function isPlainObject(value)` —
`typeof value === "object" && value !== null && !Array.isArray(value)`. -/
def isPlainObject (value : JsValue) : Bool :=
  jsTypeof value == "object" && !(jsIsNull value) && !(jsIsArray value)

mutual

/-- JavaScript `String(v)` coercion on the modelled values. An `Error`
stringifies per `Error.prototype.toString` (`name ++ ": " ++ message`,
with either part dropped when empty); an array stringifies per
`Array.prototype.join` with separator `","`, where `null` and
`undefined` elements become the empty string. -/
def jsToString : JsValue → String
  | JsValue.undef => "undefined"
  | JsValue.jsNull => "null"
  | JsValue.bool b => if b then "true" else "false"
  | JsValue.num n => toString n
  | JsValue.str s => s
  | JsValue.error name msg =>
      if msg == "" then name else if name == "" then msg else name ++ ": " ++ msg
  | JsValue.arr xs => jsArrayToString xs
  | JsValue.obj _ => "[object Object]"
termination_by v => (sizeOf v, 0)

/-- Elements of an array joined by `","` (`Array.prototype.join`). -/
def jsArrayToString : List JsValue → String
  | [] => ""
  | [x] => jsElementToString x
  | x :: y :: xs => jsElementToString x ++ "," ++ jsArrayToString (y :: xs)
termination_by xs => (sizeOf xs, 1)

/-- A single array element under `Array.prototype.join`: `null` and
`undefined` map to the empty string, everything else to `String(v)`. -/
def jsElementToString : JsValue → String
  | JsValue.undef => ""
  | JsValue.jsNull => ""
  | v => jsToString v
termination_by v => (sizeOf v, 2)

end

/-- `pat` occurs as a contiguous run inside `s` (over character lists). -/
def listIsInfixOf (pat : List Char) : List Char → Bool
  | [] => List.isPrefixOf pat []
  | b :: bs => List.isPrefixOf pat (b :: bs) || listIsInfixOf pat bs

/-- JavaScript `s.includes(pat)`: substring containment. -/
def strIncludes (s pat : String) : Bool :=
  listIsInfixOf pat.toList s.toList

/-- The event passed to the hook runner's `runAfterToolCall`
(first argument in the source). `none` models a JS `undefined` slot. -/
structure AfterToolCallEvent where
  toolName : String
  params : JsValue
  result : Option JsValue
  error : Option String
  durationMs : Option Int

/-- The context object passed to the hook runner's `runAfterToolCall`
(second argument in the source). -/
structure HookDispatchContext where
  toolName : String
  agentId : Option String
  sessionKey : Option String

/-- One invocation of the hook runner's `runAfterToolCall`. -/
abbrev HookDispatch := AfterToolCallEvent × HookDispatchContext

/-- Observable behaviour of one `hookRunner.runAfterToolCall(event, ctx)`
invocation: the promise it returns resolves, rejects with a value, never
settles, or the invocation itself throws synchronously. -/
inductive HookCallBehavior where
  | resolves : HookCallBehavior
  | rejects : JsValue → HookCallBehavior
  | throwsSync : JsValue → HookCallBehavior
  | neverSettles : HookCallBehavior

/-- The external hook runner, consumed through `hasHooks` and
`runAfterToolCall` only; the latter is modelled by the observable
behaviour of the invocation. -/
structure HookRunner where
  hasHooks : String → Bool
  runAfterToolCall : AfterToolCallEvent → HookDispatchContext → HookCallBehavior

/-- External collaborators resolved by the module: the process-wide hook
runner singleton returned by `getGlobalHookRunner()` (absent when `null`)
and the external `normalizeToolName` canonicalization function from
`tool-policy.ts`. -/
structure HookEnv where
  hookRunner : Option HookRunner
  normalizeToolName : String → String

/-- Source type `HookContext`: optional correlation metadata. -/
structure HookContext where
  agentId : Option String
  sessionKey : Option String

/-- The argument object of `runAfterToolCallHook`. -/
structure RunHookArgs where
  toolName : String
  params : JsValue
  result : Option JsValue
  error : Option String
  durationMs : Option Int
  toolCallId : Option String
  ctx : Option HookContext

/-- The warning line `log.warn` emits when dispatch fails, from the
template string in the source: a ` toolCallId=...` part appears only when
`args.toolCallId` is truthy (present and non-empty). -/
def warnMessage (toolName : String) (toolCallId : Option String) (err : JsValue) : String :=
  (("after_tool_call hook failed: tool=" ++ toolName) ++
    (match toolCallId with
     | some id => if id == "" then "" else " toolCallId=" ++ id
     | none => "")) ++ (" error=" ++ jsToString err)

/-- Source: `runAfterToolCallHook(args)`. Returns the list of invocations
handed to the hook runner's `runAfterToolCall` paired with the warning
lines logged. Absent runner or no registered `after_tool_call` hooks is
the early-return path; otherwise the tool name is defaulted and
normalized, the params are normalized through `isPlainObject`, and both a
synchronous throw (the `try`/`catch`) and an asynchronous rejection (the
attached `.catch`) are only logged. -/
def runAfterToolCallHook (env : HookEnv) (args : RunHookArgs) :
    List HookDispatch × List String :=
  match env.hookRunner with
  | none => ([], [])
  | some hookRunner =>
    if !(hookRunner.hasHooks "after_tool_call") then ([], [])
    else
      let toolName := env.normalizeToolName (if args.toolName == "" then "tool" else args.toolName)
      let normalizedParams := if isPlainObject args.params then args.params else JsValue.obj []
      let event : AfterToolCallEvent :=
        { toolName := toolName
          params := normalizedParams
          result := args.result
          error := args.error
          durationMs := args.durationMs }
      let dctx : HookDispatchContext :=
        { toolName := toolName
          agentId := Option.bind args.ctx HookContext.agentId
          sessionKey := Option.bind args.ctx HookContext.sessionKey }
      let logs :=
        match hookRunner.runAfterToolCall event dctx with
        | HookCallBehavior.resolves => []
        | HookCallBehavior.neverSettles => []
        | HookCallBehavior.rejects err => [warnMessage toolName args.toolCallId err]
        | HookCallBehavior.throwsSync err => [warnMessage toolName args.toolCallId err]
      ([(event, dctx)], logs)

/-- Result of one call of an `execute` operation, as observed by this
layer: the settled outcome (`Except.error e` models a throw/rejection
with the JS value `e`, `Except.ok r` a resolution with `r`), the
milliseconds elapsed between invocation and settling (so the second
`Date.now()` read in the wrapper is the invocation read plus this), the
invocations of the hook runner's `runAfterToolCall` made while it ran,
and the warning lines it logged. A plain tool's `execute` makes no such
invocations and logs nothing. -/
structure ExecOut where
  outcome : Except JsValue JsValue
  elapsedMs : Int
  dispatches : List HookDispatch
  logs : List String

/-- The `execute` operation signature:
`(toolCallId, params, signal, onUpdate) → outcome`, plus the `Date.now()`
value at invocation time so elapsed time is meaningful. -/
def ExecuteFn :=
  String → JsValue → Option JsValue → Option JsValue → Int → ExecOut

/-- A tool as this module sees it: a `name`, an optional `execute`, and
all remaining (spread-copied) properties. -/
structure AnyAgentTool where
  name : String
  extra : List (String × JsValue)
  execute : Option ExecuteFn

/-- The `execute` closure built by `wrapToolWithAfterToolCallHook`: record
`startMs = Date.now()`, await the original `execute` on the identical
arguments, and in the `finally` (unless the failure string contains one
of the blocked-call markers) compute `durationMs = Date.now() - startMs`
and call `runAfterToolCallHook`; the outcome returned or re-thrown to the
caller, and the time at which it settles, are the underlying call's own. -/
def wrappedExecute (env : HookEnv) (toolName : String) (ctx : Option HookContext)
    (execute : ExecuteFn) : ExecuteFn :=
  fun toolCallId params signal onUpdate startMs =>
    let out := execute toolCallId params signal onUpdate startMs
    let durationMs := (startMs + out.elapsedMs) - startMs
    match out.outcome with
    | Except.ok result =>
      let hookOut := runAfterToolCallHook env
        { toolName := toolName, params := params, result := some result,
          error := none, durationMs := some durationMs,
          toolCallId := some toolCallId, ctx := ctx }
      { outcome := Except.ok result, elapsedMs := out.elapsedMs,
        dispatches := out.dispatches ++ hookOut.1, logs := out.logs ++ hookOut.2 }
    | Except.error err =>
      let error := jsToString err
      if strIncludes error "blocked by plugin hook" || strIncludes error "Tool call blocked" then
        { outcome := Except.error err, elapsedMs := out.elapsedMs,
          dispatches := out.dispatches, logs := out.logs }
      else
        let hookOut := runAfterToolCallHook env
          { toolName := toolName, params := params, result := none,
            error := some error, durationMs := some durationMs,
            toolCallId := some toolCallId, ctx := ctx }
        { outcome := Except.error err, elapsedMs := out.elapsedMs,
          dispatches := out.dispatches ++ hookOut.1, logs := out.logs ++ hookOut.2 }

/-- Source: `wrapToolWithAfterToolCallHook(tool, ctx)`. A tool without an
`execute` is returned as-is; otherwise the spread copy `{...tool}` keeps
`name` and every other property and only `execute` is replaced, the tool
name having been defaulted to `"tool"` when falsy. -/
def wrapToolWithAfterToolCallHook (env : HookEnv) (tool : AnyAgentTool)
    (ctx : Option HookContext) : AnyAgentTool :=
  match tool.execute with
  | none => tool
  | some execute =>
    { tool with
      execute := some (wrappedExecute env (if tool.name == "" then "tool" else tool.name) ctx execute) }

/-- A hook runner with hooks registered whose dispatch promise resolves. -/
def passRunner : HookRunner where
  hasHooks := fun _ => true
  runAfterToolCall := fun _ _ => HookCallBehavior.resolves

/-- Environment with `passRunner` and the identity normalizer. -/
def passEnv : HookEnv where
  hookRunner := some passRunner
  normalizeToolName := fun s => s

/-- A hook runner with hooks registered whose dispatch never settles. -/
def stallRunner : HookRunner where
  hasHooks := fun _ => true
  runAfterToolCall := fun _ _ => HookCallBehavior.neverSettles

/-- Environment with `stallRunner` and the identity normalizer. -/
def stallEnv : HookEnv where
  hookRunner := some stallRunner
  normalizeToolName := fun s => s

/-- A hook runner reporting no hooks registered for any kind. -/
def idleRunner : HookRunner where
  hasHooks := fun _ => false
  runAfterToolCall := fun _ _ => HookCallBehavior.resolves

/-- Environment with `idleRunner` and the identity normalizer. -/
def idleEnv : HookEnv where
  hookRunner := some idleRunner
  normalizeToolName := fun s => s

/-- Sample params object. -/
def sampleParams : JsValue := JsValue.obj [("cmd", JsValue.str "ls")]

/-- Sample result value. -/
def sampleResult : JsValue := JsValue.obj [("ok", JsValue.bool true)]

/-- An execute that resolves with `sampleResult` after 5 ms. -/
def okExec : ExecuteFn := fun _ _ _ _ _ =>
  { outcome := Except.ok sampleResult, elapsedMs := 5, dispatches := [], logs := [] }

/-- An execute that rejects with `Error("command failed")` after 5 ms. -/
def failExec : ExecuteFn := fun _ _ _ _ _ =>
  { outcome := Except.error (JsValue.error "Error" "command failed"),
    elapsedMs := 5, dispatches := [], logs := [] }

/-- An execute that rejects with the upstream gate's blocked-call error. -/
def blockedExec : ExecuteFn := fun _ _ _ _ _ =>
  { outcome := Except.error (JsValue.error "Error" "Tool call blocked by plugin hook"),
    elapsedMs := 5, dispatches := [], logs := [] }

/-- Sample dispatcher argument object. -/
def sampleArgs : RunHookArgs where
  toolName := "exec"
  params := sampleParams
  result := some sampleResult
  error := none
  durationMs := some 5
  toolCallId := some "call-1"
  ctx := none

/-- Sample tool: named, with one extra property and `okExec`. -/
def sampleTool : AnyAgentTool where
  name := "exec"
  extra := [("about", JsValue.str "sample")]
  execute := some okExec

/-- Dispatcher arguments carrying a string where params belong. -/
def strParamsArgs : RunHookArgs where
  toolName := "ReAd"
  params := JsValue.str "not-an-object"
  result := some sampleResult
  error := none
  durationMs := some 5
  toolCallId := some "call-7"
  ctx := none

/-- A tool with no execute operation. -/
def bareTool : AnyAgentTool where
  name := "noop"
  extra := [("about", JsValue.str "no execute")]
  execute := none

/-- Dispatcher arguments with an empty tool name. -/
def emptyNameArgs : RunHookArgs where
  toolName := ""
  params := sampleParams
  result := some sampleResult
  error := none
  durationMs := some 5
  toolCallId := none
  ctx := none

/-- Unfolding lemma for `jsToString` on an `Error` value. -/
theorem jsToString_error_eq (name msg : String) :
    jsToString (JsValue.error name msg) =
      if msg == "" then name else if name == "" then msg else name ++ ": " ++ msg := by
  simp [jsToString]

/-- Unfolding lemma for `jsToString` on a string value. -/
theorem jsToString_str_eq (s : String) : jsToString (JsValue.str s) = s := by
  simp [jsToString]

/-- The dispatcher contributes nothing when the runner is absent or
reports no `after_tool_call` hooks. -/
theorem runAfterToolCallHook_no_hooks (env : HookEnv) (args : RunHookArgs)
    (hq : env.hookRunner = none ∨
      ∃ hr, env.hookRunner = some hr ∧ hr.hasHooks "after_tool_call" = false) :
    runAfterToolCallHook env args = ([], []) := by
  rcases hq with h | ⟨hr, h, hh⟩ <;> simp [runAfterToolCallHook, h]
  simp [hh]

/-- C1: for every tool call, no synchronous throw or asynchronous
rejection from the hook runner's `runAfterToolCall` alters the
caller-visible outcome of the wrapped execute: whatever the environment
(runner absent, throwing synchronously, or rejecting asynchronously), the
wrapped execute's outcome — and the time at which it settles — equal the
underlying execute's own; a failing dispatch only appends warning lines
to the log. -/
theorem wrappedExecute_outcome_isolated (env : HookEnv) (toolName : String)
    (ctx : Option HookContext) (execute : ExecuteFn) (toolCallId : String)
    (params : JsValue) (signal onUpdate : Option JsValue) (startMs : Int) :
    (wrappedExecute env toolName ctx execute toolCallId params signal onUpdate startMs).outcome
        = (execute toolCallId params signal onUpdate startMs).outcome ∧
      (wrappedExecute env toolName ctx execute toolCallId params signal onUpdate startMs).elapsedMs
        = (execute toolCallId params signal onUpdate startMs).elapsedMs := by
  unfold wrappedExecute
  cases hout : (execute toolCallId params signal onUpdate startMs).outcome with
  | ok r => simp [hout]
  | error e => simp [hout]; split <;> simp

/-- C5: dispatch is fire-and-forget — when every pending operation the
hook runner returns never settles, the wrapped execute still settles with
the underlying execute's own outcome, at the underlying execute's own
settle time: its completion is never awaited on the caller-visible path. -/
theorem wrappedExecute_fire_and_forget (env : HookEnv) (hr : HookRunner)
    (hrun : env.hookRunner = some hr)
    (hstall : ∀ ev dctx, hr.runAfterToolCall ev dctx = HookCallBehavior.neverSettles)
    (toolName : String) (ctx : Option HookContext) (execute : ExecuteFn)
    (toolCallId : String) (params : JsValue) (signal onUpdate : Option JsValue)
    (startMs : Int) :
    (wrappedExecute env toolName ctx execute toolCallId params signal onUpdate startMs).outcome
        = (execute toolCallId params signal onUpdate startMs).outcome ∧
      (wrappedExecute env toolName ctx execute toolCallId params signal onUpdate startMs).elapsedMs
        = (execute toolCallId params signal onUpdate startMs).elapsedMs := by
  unfold wrappedExecute
  cases hout : (execute toolCallId params signal onUpdate startMs).outcome with
  | ok r => simp [hout]
  | error e => simp [hout]; split <;> simp

/-- C5 witness: a concrete never-settling hook runner with hooks
registered, on a successful concrete call. -/
theorem wrappedExecute_fire_and_forget_witness :
    stallEnv.hookRunner = some stallRunner ∧
      (∀ ev dctx, stallRunner.runAfterToolCall ev dctx = HookCallBehavior.neverSettles) ∧
      ((wrappedExecute stallEnv "exec" none okExec "call-3" sampleParams none none 0).outcome
          = (okExec "call-3" sampleParams none none 0).outcome ∧
        (wrappedExecute stallEnv "exec" none okExec "call-3" sampleParams none none 0).elapsedMs
          = (okExec "call-3" sampleParams none none 0).elapsedMs) :=
  ⟨rfl, fun _ _ => rfl,
    wrappedExecute_fire_and_forget stallEnv stallRunner rfl (fun _ _ => rfl)
      "exec" none okExec "call-3" sampleParams none none 0⟩

/-- C6: with no hook runner, or a runner reporting no hooks registered
for `after_tool_call`, wrapping is transparent: the wrapped tool's
execute applied to the identical arguments is the one underlying call
with identical outcome, dispatches and logs (in particular the runner's
`runAfterToolCall` is never invoked), and the dispatcher returns the
empty contribution immediately for every argument object. -/
theorem wrapTool_transparent_when_no_hooks (env : HookEnv) (tool : AnyAgentTool)
    (ctx : Option HookContext) (e we : ExecuteFn)
    (hexec : tool.execute = some e)
    (hwe : (wrapToolWithAfterToolCallHook env tool ctx).execute = some we)
    (hq : env.hookRunner = none ∨
      ∃ hr, env.hookRunner = some hr ∧ hr.hasHooks "after_tool_call" = false)
    (toolCallId : String) (params : JsValue) (signal onUpdate : Option JsValue)
    (startMs : Int) (args : RunHookArgs) :
    we toolCallId params signal onUpdate startMs = e toolCallId params signal onUpdate startMs ∧
      runAfterToolCallHook env args = ([], []) := by
  have hno : ∀ a, runAfterToolCallHook env a = ([], []) := fun a =>
    runAfterToolCallHook_no_hooks env a hq
  have hwe2 : we = wrappedExecute env (if tool.name == "" then "tool" else tool.name) ctx e := by
    rw [wrapToolWithAfterToolCallHook, hexec] at hwe
    simpa using hwe.symm
  refine ⟨?_, hno args⟩
  rw [hwe2]
  unfold wrappedExecute
  cases hout : (e toolCallId params signal onUpdate startMs).outcome with
  | ok r => simp [hout, hno]; rw [← hout]
  | error err => simp [hout, hno]; rw [← hout]

/-- Shape of any invocation the dispatcher hands to the hook runner:
normalized defaulted tool name shared by event and context, normalized
params, and the result/error/duration slots copied from the arguments. -/
theorem runAfterToolCallHook_dispatch_mem (env : HookEnv) (args : RunHookArgs)
    (d : HookDispatch) (hd : d ∈ (runAfterToolCallHook env args).1) :
    d.1.toolName = env.normalizeToolName (if args.toolName == "" then "tool" else args.toolName) ∧
      d.2.toolName = d.1.toolName ∧
      d.1.params = (if isPlainObject args.params then args.params else JsValue.obj []) ∧
      d.1.result = args.result ∧ d.1.error = args.error ∧ d.1.durationMs = args.durationMs := by
  match henv : env.hookRunner with
  | none => simp [runAfterToolCallHook, henv] at hd
  | some hr =>
    match hh : hr.hasHooks "after_tool_call" with
    | false => simp [runAfterToolCallHook, henv, hh] at hd
    | true =>
      simp [runAfterToolCallHook, henv, hh] at hd
      subst hd
      simp

/-- C6 witness: a runner with no hooks registered, a concrete tool, a
concrete call and a concrete dispatcher argument object. -/
theorem wrapTool_transparent_when_no_hooks_witness :
    sampleTool.execute = some okExec ∧
      (wrapToolWithAfterToolCallHook idleEnv sampleTool none).execute
        = some (wrappedExecute idleEnv "exec" none okExec) ∧
      (idleEnv.hookRunner = none ∨
        ∃ hr, idleEnv.hookRunner = some hr ∧ hr.hasHooks "after_tool_call" = false) ∧
      (wrappedExecute idleEnv "exec" none okExec "call-1" sampleParams none none 0
          = okExec "call-1" sampleParams none none 0 ∧
        runAfterToolCallHook idleEnv sampleArgs = ([], [])) :=
  ⟨rfl, rfl, Or.inr ⟨idleRunner, rfl, rfl⟩,
    wrapTool_transparent_when_no_hooks idleEnv sampleTool none okExec
      (wrappedExecute idleEnv "exec" none okExec) rfl rfl
      (Or.inr ⟨idleRunner, rfl, rfl⟩) "call-1" sampleParams none none 0 sampleArgs⟩

/-- C2: when the underlying execution fails with an error whose string
description contains one of the blocked-call marker substrings, the
dispatch is never invoked — the wrapped call contributes no hook-runner
invocation and no log line — and the original error value still
propagates to the caller. -/
theorem wrappedExecute_blocked_skips_dispatch (env : HookEnv) (toolName : String)
    (ctx : Option HookContext) (execute : ExecuteFn) (toolCallId : String)
    (params : JsValue) (signal onUpdate : Option JsValue) (startMs : Int) (err : JsValue)
    (hout : (execute toolCallId params signal onUpdate startMs).outcome = Except.error err)
    (hmark : strIncludes (jsToString err) "blocked by plugin hook" = true ∨
      strIncludes (jsToString err) "Tool call blocked" = true) :
    (wrappedExecute env toolName ctx execute toolCallId params signal onUpdate startMs).outcome
        = Except.error err ∧
      (wrappedExecute env toolName ctx execute toolCallId params signal onUpdate startMs).dispatches
        = (execute toolCallId params signal onUpdate startMs).dispatches ∧
      (wrappedExecute env toolName ctx execute toolCallId params signal onUpdate startMs).logs
        = (execute toolCallId params signal onUpdate startMs).logs := by
  unfold wrappedExecute
  rcases hmark with hm | hm <;> simp [hout, hm]

/-- C2 witness: a call failing with
`Error("Tool call blocked by plugin hook")` under a runner with hooks
registered. -/
theorem wrappedExecute_blocked_skips_dispatch_witness :
    (blockedExec "call-b" sampleParams none none 0).outcome
        = Except.error (JsValue.error "Error" "Tool call blocked by plugin hook") ∧
      (strIncludes (jsToString (JsValue.error "Error" "Tool call blocked by plugin hook"))
          "blocked by plugin hook" = true ∨
        strIncludes (jsToString (JsValue.error "Error" "Tool call blocked by plugin hook"))
          "Tool call blocked" = true) ∧
      ((wrappedExecute passEnv "exec" none blockedExec "call-b" sampleParams none none 0).outcome
          = Except.error (JsValue.error "Error" "Tool call blocked by plugin hook") ∧
        (wrappedExecute passEnv "exec" none blockedExec "call-b" sampleParams none none 0).dispatches
          = (blockedExec "call-b" sampleParams none none 0).dispatches ∧
        (wrappedExecute passEnv "exec" none blockedExec "call-b" sampleParams none none 0).logs
          = (blockedExec "call-b" sampleParams none none 0).logs) :=
  ⟨rfl, Or.inl (by rw [jsToString_error_eq]; decide),
    wrappedExecute_blocked_skips_dispatch passEnv "exec" none blockedExec "call-b"
      sampleParams none none 0 (JsValue.error "Error" "Tool call blocked by plugin hook") rfl
      (Or.inl (by rw [jsToString_error_eq]; decide))⟩

/-- The string description of an `Error` value contains its message. -/
theorem jsToString_error_contains_msg (name msg : String) :
    ∃ pre post, jsToString (JsValue.error name msg) = pre ++ msg ++ post := by
  rw [jsToString_error_eq]
  by_cases h1 : msg = ""
  · exact ⟨name, "", by simp [h1]⟩
  · by_cases h2 : name = ""
    · exact ⟨"", "", by simp [h1, h2]⟩
    · exact ⟨name ++ ": ", "", by simp [h1, h2, String.append_assoc]⟩

/-- When the runner is present and has `after_tool_call` hooks, the
dispatcher invokes it exactly once, with this event and context. -/
theorem runAfterToolCallHook_fst (env : HookEnv) (hr : HookRunner) (args : RunHookArgs)
    (hrun : env.hookRunner = some hr) (hhooks : hr.hasHooks "after_tool_call" = true) :
    (runAfterToolCallHook env args).1 =
      [({ toolName := env.normalizeToolName (if args.toolName == "" then "tool" else args.toolName),
          params := if isPlainObject args.params then args.params else JsValue.obj [],
          result := args.result, error := args.error, durationMs := args.durationMs },
        { toolName := env.normalizeToolName (if args.toolName == "" then "tool" else args.toolName),
          agentId := Option.bind args.ctx HookContext.agentId,
          sessionKey := Option.bind args.ctx HookContext.sessionKey })] := by
  unfold runAfterToolCallHook
  rw [hrun]
  simp [hhooks]

/-- On a successful underlying call the wrapper adds exactly the
dispatcher's contribution for the success argument object. -/
theorem wrappedExecute_dispatches_ok (env : HookEnv) (toolName : String)
    (ctx : Option HookContext) (execute : ExecuteFn) (toolCallId : String)
    (params : JsValue) (signal onUpdate : Option JsValue) (startMs : Int) (r : JsValue)
    (hout : (execute toolCallId params signal onUpdate startMs).outcome = Except.ok r) :
    (wrappedExecute env toolName ctx execute toolCallId params signal onUpdate startMs).dispatches
      = (execute toolCallId params signal onUpdate startMs).dispatches ++
        (runAfterToolCallHook env
          { toolName := toolName, params := params, result := some r, error := none,
            durationMs := some
              ((startMs + (execute toolCallId params signal onUpdate startMs).elapsedMs) - startMs),
            toolCallId := some toolCallId, ctx := ctx }).1 := by
  unfold wrappedExecute
  simp [hout]

/-- On a non-blocked failing underlying call the wrapper adds exactly the
dispatcher's contribution for the failure argument object. -/
theorem wrappedExecute_dispatches_error (env : HookEnv) (toolName : String)
    (ctx : Option HookContext) (execute : ExecuteFn) (toolCallId : String)
    (params : JsValue) (signal onUpdate : Option JsValue) (startMs : Int) (e : JsValue)
    (hout : (execute toolCallId params signal onUpdate startMs).outcome = Except.error e)
    (hm1 : strIncludes (jsToString e) "blocked by plugin hook" = false)
    (hm2 : strIncludes (jsToString e) "Tool call blocked" = false) :
    (wrappedExecute env toolName ctx execute toolCallId params signal onUpdate startMs).dispatches
      = (execute toolCallId params signal onUpdate startMs).dispatches ++
        (runAfterToolCallHook env
          { toolName := toolName, params := params, result := none,
            error := some (jsToString e),
            durationMs := some
              ((startMs + (execute toolCallId params signal onUpdate startMs).elapsedMs) - startMs),
            toolCallId := some toolCallId, ctx := ctx }).1 := by
  unfold wrappedExecute
  simp [hout, hm1, hm2]

/-- C3: when the underlying execution fails with a non-blocked `Error`
and a hook runner with `after_tool_call` hooks exists, the hook runner is
invoked exactly once, with an event whose `error` slot is the string
description of the failure (a string containing the failure's message)
and whose `result` slot is absent, and the very same error value is
re-thrown to the caller. -/
theorem wrappedExecute_failure_dispatch (env : HookEnv) (hr : HookRunner)
    (toolName : String) (ctx : Option HookContext) (execute : ExecuteFn)
    (toolCallId : String) (params : JsValue) (signal onUpdate : Option JsValue)
    (startMs : Int) (name msg : String)
    (hrun : env.hookRunner = some hr)
    (hhooks : hr.hasHooks "after_tool_call" = true)
    (hout : (execute toolCallId params signal onUpdate startMs).outcome
      = Except.error (JsValue.error name msg))
    (hm1 : strIncludes (jsToString (JsValue.error name msg)) "blocked by plugin hook" = false)
    (hm2 : strIncludes (jsToString (JsValue.error name msg)) "Tool call blocked" = false)
    (hnd : (execute toolCallId params signal onUpdate startMs).dispatches = []) :
    (wrappedExecute env toolName ctx execute toolCallId params signal onUpdate startMs).outcome
        = Except.error (JsValue.error name msg) ∧
      ∃ ev dctx,
        (wrappedExecute env toolName ctx execute toolCallId params signal onUpdate startMs).dispatches
            = [(ev, dctx)] ∧
          ev.error = some (jsToString (JsValue.error name msg)) ∧
          ev.result = none ∧
          ∃ pre post, jsToString (JsValue.error name msg) = pre ++ msg ++ post := by
  refine ⟨by unfold wrappedExecute; simp [hout, hm1, hm2], ?_⟩
  rw [wrappedExecute_dispatches_error env toolName ctx execute toolCallId params signal
      onUpdate startMs _ hout hm1 hm2, hnd,
    runAfterToolCallHook_fst env hr _ hrun hhooks]
  exact ⟨_, _, by rw [List.nil_append], rfl, rfl, jsToString_error_contains_msg name msg⟩

/-- C3 witness: a call failing with `Error("command failed")` under a
runner with hooks registered. -/
theorem wrappedExecute_failure_dispatch_witness :
    passEnv.hookRunner = some passRunner ∧
      passRunner.hasHooks "after_tool_call" = true ∧
      (failExec "call-4" sampleParams none none 0).outcome
        = Except.error (JsValue.error "Error" "command failed") ∧
      strIncludes (jsToString (JsValue.error "Error" "command failed"))
        "blocked by plugin hook" = false ∧
      strIncludes (jsToString (JsValue.error "Error" "command failed"))
        "Tool call blocked" = false ∧
      (failExec "call-4" sampleParams none none 0).dispatches = [] ∧
      ((wrappedExecute passEnv "exec" none failExec "call-4" sampleParams none none 0).outcome
          = Except.error (JsValue.error "Error" "command failed") ∧
        ∃ ev dctx,
          (wrappedExecute passEnv "exec" none failExec "call-4" sampleParams none none 0).dispatches
              = [(ev, dctx)] ∧
            ev.error = some (jsToString (JsValue.error "Error" "command failed")) ∧
            ev.result = none ∧
            ∃ pre post,
              jsToString (JsValue.error "Error" "command failed") = pre ++ "command failed" ++ post) :=
  ⟨rfl, rfl, rfl, by rw [jsToString_error_eq]; decide, by rw [jsToString_error_eq]; decide, rfl,
    wrappedExecute_failure_dispatch passEnv passRunner "exec" none failExec "call-4"
      sampleParams none none 0 "Error" "command failed" rfl rfl rfl
      (by rw [jsToString_error_eq]; decide) (by rw [jsToString_error_eq]; decide) rfl⟩

/-- C4: when the underlying execution succeeds and a hook runner with
`after_tool_call` hooks exists, the hook runner is invoked exactly once,
with an event whose `result` slot equals the underlying result, whose
`error` slot is absent, and whose `durationMs` is a non-negative integer
(under a monotone clock, i.e. a non-negative elapsed time); the same
result is returned unchanged to the caller. -/
theorem wrappedExecute_success_dispatch (env : HookEnv) (hr : HookRunner)
    (toolName : String) (ctx : Option HookContext) (execute : ExecuteFn)
    (toolCallId : String) (params : JsValue) (signal onUpdate : Option JsValue)
    (startMs : Int) (r : JsValue)
    (hrun : env.hookRunner = some hr)
    (hhooks : hr.hasHooks "after_tool_call" = true)
    (hout : (execute toolCallId params signal onUpdate startMs).outcome = Except.ok r)
    (hnd : (execute toolCallId params signal onUpdate startMs).dispatches = [])
    (hmono : 0 ≤ (execute toolCallId params signal onUpdate startMs).elapsedMs) :
    (wrappedExecute env toolName ctx execute toolCallId params signal onUpdate startMs).outcome
        = Except.ok r ∧
      ∃ ev dctx,
        (wrappedExecute env toolName ctx execute toolCallId params signal onUpdate startMs).dispatches
            = [(ev, dctx)] ∧
          ev.result = some r ∧
          ev.error = none ∧
          ∃ d, ev.durationMs = some d ∧ 0 ≤ d := by
  refine ⟨by unfold wrappedExecute; simp [hout], ?_⟩
  rw [wrappedExecute_dispatches_ok env toolName ctx execute toolCallId params signal
      onUpdate startMs r hout, hnd,
    runAfterToolCallHook_fst env hr _ hrun hhooks]
  exact ⟨_, _, by rw [List.nil_append], rfl, rfl,
    ⟨(startMs + (execute toolCallId params signal onUpdate startMs).elapsedMs) - startMs,
      rfl, by omega⟩⟩

/-- C4 witness: a successful concrete call under a runner with hooks
registered. -/
theorem wrappedExecute_success_dispatch_witness :
    passEnv.hookRunner = some passRunner ∧
      passRunner.hasHooks "after_tool_call" = true ∧
      (okExec "call-2" sampleParams none none 0).outcome = Except.ok sampleResult ∧
      (okExec "call-2" sampleParams none none 0).dispatches = [] ∧
      0 ≤ (okExec "call-2" sampleParams none none 0).elapsedMs ∧
      ((wrappedExecute passEnv "exec" none okExec "call-2" sampleParams none none 0).outcome
          = Except.ok sampleResult ∧
        ∃ ev dctx,
          (wrappedExecute passEnv "exec" none okExec "call-2" sampleParams none none 0).dispatches
              = [(ev, dctx)] ∧
            ev.result = some sampleResult ∧
            ev.error = none ∧
            ∃ d, ev.durationMs = some d ∧ 0 ≤ d) :=
  ⟨rfl, rfl, rfl, rfl, by decide,
    wrappedExecute_success_dispatch passEnv passRunner "exec" none okExec "call-2"
      sampleParams none none 0 sampleResult rfl rfl rfl rfl (by decide)⟩

/-- C7: every event the dispatcher hands to the hook runner carries a
plain-object `params`: a non-null non-array object value is passed
through unchanged, anything else (scalar, string, array, null,
undefined) is replaced with the empty mapping. -/
theorem dispatched_params_normalized (env : HookEnv) (args : RunHookArgs)
    (d : HookDispatch) (hd : d ∈ (runAfterToolCallHook env args).1) :
    isPlainObject d.1.params = true ∧
      (isPlainObject args.params = true → d.1.params = args.params) ∧
      (isPlainObject args.params = false → d.1.params = JsValue.obj []) := by
  have hp := (runAfterToolCallHook_dispatch_mem env args d hd).2.2.1
  refine ⟨?_, fun h => by rw [hp, h]; simp, fun h => by rw [hp, h]; simp⟩
  rw [hp]
  cases hip : isPlainObject args.params with
  | true => simp [hip]
  | false => simp [hip]; rfl

/-- C7 witness: a string-valued `params` is replaced by the empty
mapping in the dispatched event. -/
theorem dispatched_params_normalized_witness :
    isPlainObject (JsValue.str "not-an-object") = false ∧
      ∃ d, d ∈ (runAfterToolCallHook passEnv strParamsArgs).1 ∧
        isPlainObject d.1.params = true ∧ d.1.params = JsValue.obj [] := by
  refine ⟨rfl, ?_⟩
  have h1 := runAfterToolCallHook_fst passEnv passRunner strParamsArgs rfl rfl
  obtain ⟨d, hd⟩ : ∃ d, d ∈ (runAfterToolCallHook passEnv strParamsArgs).1 :=
    ⟨_, h1 ▸ List.mem_singleton_self _⟩
  have h := dispatched_params_normalized passEnv strParamsArgs d hd
  exact ⟨d, hd, h.1, h.2.2 rfl⟩

/-- C8: a tool without an `execute` is returned as the very same value;
a tool with an `execute` becomes a new tool with the same `name`, the
same remaining properties, and only `execute` replaced (by the wrapped
execute closing over the defaulted tool name). -/
theorem wrapTool_passthrough_or_copy (env : HookEnv) (tool : AnyAgentTool)
    (ctx : Option HookContext) :
    (tool.execute = none → wrapToolWithAfterToolCallHook env tool ctx = tool) ∧
      ∀ e, tool.execute = some e →
        (wrapToolWithAfterToolCallHook env tool ctx).name = tool.name ∧
          (wrapToolWithAfterToolCallHook env tool ctx).extra = tool.extra ∧
          (wrapToolWithAfterToolCallHook env tool ctx).execute
            = some (wrappedExecute env (if tool.name == "" then "tool" else tool.name) ctx e) := by
  constructor
  · intro h
    unfold wrapToolWithAfterToolCallHook
    rw [h]
  · intro e he
    unfold wrapToolWithAfterToolCallHook
    rw [he]
    exact ⟨rfl, rfl, rfl⟩

/-- C8 witness: an executable tool keeps `name` and the other properties
and only `execute` changes; an execute-less tool passes through as-is. -/
theorem wrapTool_passthrough_or_copy_witness :
    sampleTool.execute = some okExec ∧
      ((wrapToolWithAfterToolCallHook passEnv sampleTool none).name = sampleTool.name ∧
        (wrapToolWithAfterToolCallHook passEnv sampleTool none).extra = sampleTool.extra ∧
        (wrapToolWithAfterToolCallHook passEnv sampleTool none).execute
          = some (wrappedExecute passEnv
              (if sampleTool.name == "" then "tool" else sampleTool.name) none okExec)) ∧
      bareTool.execute = none ∧
      wrapToolWithAfterToolCallHook passEnv bareTool none = bareTool :=
  ⟨rfl, (wrapTool_passthrough_or_copy passEnv sampleTool none).2 okExec rfl,
    rfl, (wrapTool_passthrough_or_copy passEnv bareTool none).1 rfl⟩

/-- On a blocked failing underlying call the wrapper adds no dispatch. -/
theorem wrappedExecute_dispatches_blocked (env : HookEnv) (toolName : String)
    (ctx : Option HookContext) (execute : ExecuteFn) (toolCallId : String)
    (params : JsValue) (signal onUpdate : Option JsValue) (startMs : Int) (e : JsValue)
    (hout : (execute toolCallId params signal onUpdate startMs).outcome = Except.error e)
    (hb : (strIncludes (jsToString e) "blocked by plugin hook" ||
      strIncludes (jsToString e) "Tool call blocked") = true) :
    (wrappedExecute env toolName ctx execute toolCallId params signal onUpdate startMs).dispatches
      = (execute toolCallId params signal onUpdate startMs).dispatches := by
  unfold wrappedExecute
  simp [hout, hb]

/-- Shape of any dispatch made by the wrapped execute of a plain tool:
defaulted-and-normalized name shared by event and context, normalized
params, and `result`/`error` slots reflecting the underlying outcome. -/
theorem wrappedExecute_dispatch_mem (env : HookEnv) (toolName : String)
    (ctx : Option HookContext) (execute : ExecuteFn) (toolCallId : String)
    (params : JsValue) (signal onUpdate : Option JsValue) (startMs : Int)
    (d : HookDispatch)
    (hnd : (execute toolCallId params signal onUpdate startMs).dispatches = [])
    (hd : d ∈ (wrappedExecute env toolName ctx execute toolCallId params
      signal onUpdate startMs).dispatches) :
    d.1.toolName = env.normalizeToolName (if toolName == "" then "tool" else toolName) ∧
      d.2.toolName = d.1.toolName ∧
      d.1.params = (if isPlainObject params then params else JsValue.obj []) ∧
      ((∃ r, (execute toolCallId params signal onUpdate startMs).outcome = Except.ok r ∧
          d.1.result = some r ∧ d.1.error = none) ∨
        (∃ e, (execute toolCallId params signal onUpdate startMs).outcome = Except.error e ∧
          d.1.result = none ∧ d.1.error = some (jsToString e))) := by
  cases hout : (execute toolCallId params signal onUpdate startMs).outcome with
  | ok r =>
    rw [wrappedExecute_dispatches_ok env toolName ctx execute toolCallId params signal
        onUpdate startMs r hout, hnd, List.nil_append] at hd
    have h := runAfterToolCallHook_dispatch_mem env _ d hd
    exact ⟨h.1, h.2.1, h.2.2.1, Or.inl ⟨r, rfl, h.2.2.2.1, h.2.2.2.2.1⟩⟩
  | error e =>
    cases hb : strIncludes (jsToString e) "blocked by plugin hook" ||
        strIncludes (jsToString e) "Tool call blocked" with
    | true =>
      rw [wrappedExecute_dispatches_blocked env toolName ctx execute toolCallId params signal
          onUpdate startMs e hout hb, hnd] at hd
      simp at hd
    | false =>
      rcases Bool.or_eq_false_iff.mp hb with ⟨hm1, hm2⟩
      rw [wrappedExecute_dispatches_error env toolName ctx execute toolCallId params signal
          onUpdate startMs e hout hm1 hm2, hnd, List.nil_append] at hd
      have h := runAfterToolCallHook_dispatch_mem env _ d hd
      exact ⟨h.1, h.2.1, h.2.2.1, Or.inr ⟨e, rfl, h.2.2.2.1, h.2.2.2.2.1⟩⟩

/-- C9: in every event the wrapped execute hands to the dispatch, exactly
one of the `result` and `error` slots is populated — `error` is absent on
success and `result` is absent on failure; they are never both present. -/
theorem dispatched_event_result_xor_error (env : HookEnv) (toolName : String)
    (ctx : Option HookContext) (execute : ExecuteFn) (toolCallId : String)
    (params : JsValue) (signal onUpdate : Option JsValue) (startMs : Int)
    (d : HookDispatch)
    (hnd : (execute toolCallId params signal onUpdate startMs).dispatches = [])
    (hd : d ∈ (wrappedExecute env toolName ctx execute toolCallId params
      signal onUpdate startMs).dispatches) :
    (d.1.result ≠ none ∧ d.1.error = none) ∨ (d.1.result = none ∧ d.1.error ≠ none) := by
  rcases (wrappedExecute_dispatch_mem env toolName ctx execute toolCallId params signal
      onUpdate startMs d hnd hd).2.2.2 with ⟨r, -, hres, herr⟩ | ⟨e, -, hres, herr⟩
  · exact Or.inl ⟨by rw [hres]; simp, herr⟩
  · exact Or.inr ⟨hres, by rw [herr]; simp⟩

/-- C9 witness: the event dispatched for a successful concrete call. -/
theorem dispatched_event_result_xor_error_witness :
    (okExec "call-9" sampleParams none none 0).dispatches = [] ∧
      ∃ d, d ∈ (wrappedExecute passEnv "exec" none okExec "call-9" sampleParams
          none none 0).dispatches ∧
        ((d.1.result ≠ none ∧ d.1.error = none) ∨ (d.1.result = none ∧ d.1.error ≠ none)) := by
  refine ⟨rfl, ?_⟩
  have h1 := wrappedExecute_dispatches_ok passEnv "exec" none okExec "call-9" sampleParams
    none none 0 sampleResult rfl
  rw [runAfterToolCallHook_fst passEnv passRunner _ rfl rfl] at h1
  obtain ⟨d, hd⟩ : ∃ d, d ∈ (wrappedExecute passEnv "exec" none okExec "call-9" sampleParams
      none none 0).dispatches := by
    rw [h1]
    exact ⟨_, List.mem_append_right _ (List.mem_singleton_self _)⟩
  exact ⟨d, hd, dispatched_event_result_xor_error passEnv "exec" none okExec "call-9"
    sampleParams none none 0 d rfl hd⟩

/-- C10: a falsy (empty) tool name is replaced by the literal `"tool"`
before normalization — every dispatch of the wrapped execute of an
empty-named tool carries the canonicalization of `"tool"` as the tool
name of both event and context; the dispatcher applies the same fallback
to an empty `toolName` argument; and in every dispatch the event's
`toolName` equals the context's `toolName`. -/
theorem empty_tool_name_defaults_to_tool (env : HookEnv) :
    (∀ (tool : AnyAgentTool) (ctx : Option HookContext) (e we : ExecuteFn),
      tool.name = "" → tool.execute = some e →
      (wrapToolWithAfterToolCallHook env tool ctx).execute = some we →
      ∀ (toolCallId : String) (params : JsValue) (signal onUpdate : Option JsValue)
        (startMs : Int) (d : HookDispatch),
        (e toolCallId params signal onUpdate startMs).dispatches = [] →
        d ∈ (we toolCallId params signal onUpdate startMs).dispatches →
        d.1.toolName = env.normalizeToolName "tool" ∧
          d.2.toolName = env.normalizeToolName "tool") ∧
      (∀ (args : RunHookArgs), args.toolName = "" →
        ∀ d, d ∈ (runAfterToolCallHook env args).1 →
          d.1.toolName = env.normalizeToolName "tool" ∧
            d.2.toolName = env.normalizeToolName "tool") ∧
      ∀ (args : RunHookArgs) (d : HookDispatch), d ∈ (runAfterToolCallHook env args).1 →
        d.1.toolName = d.2.toolName := by
  refine ⟨?_, ?_, ?_⟩
  · intro tool ctx e we hname hexec hwe toolCallId params signal onUpdate startMs d hnd hd
    have hwe2 : we = wrappedExecute env "tool" ctx e := by
      rw [wrapToolWithAfterToolCallHook, hexec] at hwe
      have : (if tool.name == "" then "tool" else tool.name) = "tool" := by
        rw [hname]; simp
      rw [this] at hwe
      simpa using hwe.symm
    rw [hwe2] at hd
    have h := wrappedExecute_dispatch_mem env "tool" ctx e toolCallId params signal
      onUpdate startMs d hnd hd
    refine ⟨by rw [h.1]; simp, by rw [h.2.1, h.1]; simp⟩
  · intro args hname d hd
    have h := runAfterToolCallHook_dispatch_mem env args d hd
    have hn : (if args.toolName == "" then "tool" else args.toolName) = "tool" := by
      rw [hname]; simp
    rw [hn] at h
    exact ⟨h.1, by rw [h.2.1, h.1]⟩
  · intro args d hd
    exact ((runAfterToolCallHook_dispatch_mem env args d hd).2.1).symm

/-- C10 witness: an empty `toolName` argument dispatches the
canonicalization of `"tool"` in both event and context. -/
theorem empty_tool_name_defaults_to_tool_witness :
    emptyNameArgs.toolName = "" ∧
      ∃ d, d ∈ (runAfterToolCallHook passEnv emptyNameArgs).1 ∧
        d.1.toolName = passEnv.normalizeToolName "tool" ∧
        d.2.toolName = passEnv.normalizeToolName "tool" := by
  refine ⟨rfl, ?_⟩
  have h1 := runAfterToolCallHook_fst passEnv passRunner emptyNameArgs rfl rfl
  obtain ⟨d, hd⟩ : ∃ d, d ∈ (runAfterToolCallHook passEnv emptyNameArgs).1 :=
    ⟨_, h1 ▸ List.mem_singleton_self _⟩
  exact ⟨d, hd, (empty_tool_name_defaults_to_tool passEnv).2.1 emptyNameArgs rfl d hd⟩
